import Mathlib

/-!
# Stage plugin driver for Player: device binding and dispatch

A shallow embedding of `src/src/player_driver.cc`:

* `model_match` / `StgDriver.LocateModel`: the search that attaches a Player
  interface to a Stage model;
* `StgDriver.StgDriver`: the constructor building the device list;
* `StgDriver.LookupDevice`, `StgDriver.Subscribe`, `StgDriver.Unsubscribe`;
* `StgDriver.Update`: the per-cycle pass over the device list.

Pointers to models are represented by the model's `id`; a NULL pointer is
`none`.  Array lengths are assumed to fit the `int` loop counters of the source.
-/

namespace Stage

/-- The model type tag `stg_model_type_t` (an enumeration of libstage). -/
inductive stg_model_type_t where
  | STG_MODEL_BASIC
  | STG_MODEL_POSITION
  | STG_MODEL_LASER
  | STG_MODEL_FIDUCIAL
  | STG_MODEL_RANGER
  | STG_MODEL_BLOB
  | other (n : Nat)
deriving DecidableEq, Repr

/-- The interface code of a Player device identifier.  The six codes handled by
the constructor's `switch` are named; every other code is `other n`. -/
inductive player_code_t where
  | PLAYER_SIMULATION_CODE
  | PLAYER_POSITION_CODE
  | PLAYER_LASER_CODE
  | PLAYER_FIDUCIAL_CODE
  | PLAYER_BLOBFINDER_CODE
  | PLAYER_SONAR_CODE
  | other (n : Nat)
deriving DecidableEq, Repr

/-- A Stage model `stg_model_t`: the fields read by the driver.  `id` stands for
the identity of the node (the value of a `stg_model_t*`), `token` is its name,
`children` is the `GPtrArray` of child models in stored order. -/
inductive stg_model_t where
  | mk (id : Nat) (token : String) (type : stg_model_type_t)
      (children : List stg_model_t) : stg_model_t

namespace stg_model_t

def id : stg_model_t → Nat
  | mk i _ _ _ => i

def token : stg_model_t → String
  | mk _ t _ _ => t

def type : stg_model_t → stg_model_type_t
  | mk _ _ t _ => t

def children : stg_model_t → List stg_model_t
  | mk _ _ _ cs => cs

end stg_model_t

/-- The Player device identifier `player_device_id_t`. -/
structure player_device_id_t where
  port : Nat
  code : player_code_t
  index : Nat
deriving DecidableEq, Repr

/-- The driver's record for one device (`Interface` in the source): the Player
identifier, the attached model (`mod`, NULL for an interface without a model),
and the buffer sizes handed to `AddInterface`. -/
structure Interface where
  id : player_device_id_t
  mod : Option Nat
  data_len : Nat
  cmd_len : Nat
  req_qlen : Nat
  /-- Modelled from the spec: the activity flag of a Binding
  (subscribed / unsubscribed). -/
  active : Bool
deriving DecidableEq, Repr

/-! ## The resolver -/

/-- The inner loop of `model_match` (lines 225-238): does `match` appear as the
`mod` of some entry of `devices`? -/
def already_used (m : stg_model_t) : List Interface → Bool
  | [] => false
  | interface :: rest =>
    if interface.mod = some m.id then true else already_used m rest

mutual

/-- The function `model_match` (lines 206-245). -/
def model_match (mod : stg_model_t) (tp : stg_model_type_t)
    (devices : List Interface) : Option stg_model_t :=
  match mod with
  | .mk _ _ type children =>
    if type = tp then some mod
    else model_match_children children tp devices

/-- The `for` loop over `mod->children` of `model_match` (lines 215-242). -/
def model_match_children (children : List stg_model_t) (tp : stg_model_type_t)
    (devices : List Interface) : Option stg_model_t :=
  match children with
  | [] => none
  | child :: rest =>
    match model_match child tp devices with
    | some m => if already_used m devices then none else some m
    | none => model_match_children rest tp devices

end

mutual

/-- The entities of the subtree of `mod` in depth-first pre-order: the root
first, then the subtrees of the children in stored order. -/
def preorder (mod : stg_model_t) : List stg_model_t :=
  match mod with
  | .mk _ _ _ children => mod :: preorder_children children

/-- Pre-order listing of a sequence of sibling subtrees. -/
def preorder_children (children : List stg_model_t) : List stg_model_t :=
  match children with
  | [] => []
  | child :: rest => preorder child ++ preorder_children rest

end

/-- The first entity of type `tp` in depth-first pre-order of the subtree of
`mod`, if there is one. -/
def first_of_type (mod : stg_model_t) (tp : stg_model_type_t) : Option stg_model_t :=
  (preorder mod).find? (fun m => decide (m.type = tp))

/-- An ancestor of an entity, seen from the entity: the ancestor's own fields,
its children `pre` stored before the child on the way down to the entity, and
its children `post` stored after that child (the later siblings of that
child). -/
structure Ancestor where
  id : Nat
  token : String
  type : stg_model_type_t
  pre : List stg_model_t
  post : List stg_model_t

/-- The ancestor as a model, with `c` as the child on the way down. -/
def Ancestor.with_child (a : Ancestor) (c : stg_model_t) : stg_model_t :=
  .mk a.id a.token a.type (a.pre ++ c :: a.post)

/-- The tree in which `m` sits below the ancestors `path`, listed from the
parent of `m` up to the root of the tree. -/
def place : List Ancestor → stg_model_t → stg_model_t
  | [], m => m
  | a :: path, m => place path (a.with_child m)

/-- No entity of type `tp` is met at an ancestor before the way down is taken:
the ancestor itself is not of type `tp` and the subtrees of its children `pre`
hold no entity of type `tp`. -/
def Ancestor.clear_before (tp : stg_model_type_t) (a : Ancestor) : Prop :=
  a.type ≠ tp ∧ ∀ x ∈ preorder_children a.pre, x.type ≠ tp

/-- The simulated world: its top-level models. -/
abbrev stg_world_t := List stg_model_t

/-- Modelled from the spec: the Entity Tree query `lookup(name) → Entity | NotFound`
(`stg_world_model_name_lookup` of libstage, not part of the driver source):
the first model of the world, in pre-order, whose name is `name`. -/
def stg_world_model_name_lookup (world : stg_world_t) (name : String) :
    Option stg_model_t :=
  (preorder_children world).find? (fun m => decide (m.token = name))

/-- The driver instance: the device array `devices` and the error code kept by
`SetError` (0 when no error has been set). -/
structure StgDriver where
  devices : List Interface
  error : Int
deriving DecidableEq, Repr

namespace StgDriver

/-- The method `StgDriver::LocateModel` (lines 356-383). -/
def LocateModel (this : StgDriver) (world : stg_world_t) (basename : String)
    (mod_type : stg_model_type_t) : Option stg_model_t :=
  match stg_world_model_name_lookup world basename with
  | none => none
  | some base_model => model_match base_model mod_type this.devices

/-- The method `StgDriver::LookupDevice` (lines 395-409): the first device
record whose identifier has the given port, code and index. -/
def LookupDevice_loop (id : player_device_id_t) : List Interface → Option Interface
  | [] => none
  | candidate :: rest =>
    if candidate.id.port = id.port ∧ candidate.id.code = id.code ∧
        candidate.id.index = id.index then some candidate
    else LookupDevice_loop id rest

/-- The method `StgDriver::LookupDevice`. -/
def LookupDevice (this : StgDriver) (id : player_device_id_t) : Option Interface :=
  LookupDevice_loop id this.devices

/-- Modelled from the spec: the effect of `stg_model_subscribe` /
`Driver::Subscribe` (and of their unsubscribe counterparts, none of them in the
driver source) on the Binding found by `LookupDevice`: its activity flag is
set to `flag`. -/
def mark (id : player_device_id_t) (flag : Bool) : List Interface → List Interface
  | [] => []
  | candidate :: rest =>
    if candidate.id.port = id.port ∧ candidate.id.code = id.code ∧
        candidate.id.index = id.index then { candidate with active := flag } :: rest
    else candidate :: mark id flag rest

/-- The method `StgDriver::Unsubscribe` (lines 432-446). -/
def Unsubscribe (this : StgDriver) (id : player_device_id_t) : Int × StgDriver :=
  if id.code = player_code_t.PLAYER_SIMULATION_CODE then (0, this)
  else
    match LookupDevice this id with
    | some _ => (0, { this with devices := mark id false this.devices })
    | none => (1, this)

end StgDriver

/-! ## The constructor -/

/-- One entry of the `provides` tuple as the constructor sees it: the result of
`cf->ReadDeviceId` (`none` when it fails) and the name of the model under which
the device is to be found. -/
structure Declaration where
  player_id : Option player_device_id_t
  model : String
deriving DecidableEq, Repr

/-- What the constructor takes from outside the driver source: the buffer sizes
each interface kind declares, and Player's `AddInterface` (a nonzero result is a
failure). -/
structure Host where
  data_len : player_code_t → Nat
  cmd_len : player_code_t → Nat
  req_qlen : player_code_t → Nat
  AddInterface : List Interface → Interface → Int

/-- Modelled from the spec: the constructor of the pass-through interface
(`InterfaceSimulation`, not in the driver source), which stands for the whole
world and is bound to no entity. -/
def InterfaceSimulation (host : Host) (player_id : player_device_id_t) : Interface :=
  { id := player_id, mod := none,
    data_len := host.data_len player_id.code,
    cmd_len := host.cmd_len player_id.code,
    req_qlen := host.req_qlen player_id.code, active := false }

/-- Modelled from the spec: the constructor of an interface bound to an entity
(`InterfacePosition`, `InterfaceLaser`, ..., not in the driver source): it calls
the resolver with the declared root name, the required type and the Bindings
built so far, and the Binding is (identifier, entity, inactive).  The object is
made by a `new` expression, so there is one whatever the resolver returned: on
`NotFound` or `NameNotFound` its `mod` is NULL. -/
def InterfaceModel (this : StgDriver) (host : Host) (world : stg_world_t)
    (player_id : player_device_id_t) (model : String) (modtype : stg_model_type_t) :
    Interface :=
  { id := player_id,
    mod := (StgDriver.LocateModel this world model modtype).map stg_model_t.id,
    data_len := host.data_len player_id.code,
    cmd_len := host.cmd_len player_id.code,
    req_qlen := host.req_qlen player_id.code, active := false }

/-- The `switch` of the constructor (lines 285-324): `none` is the `default`
branch (unsupported interface type), `some ifsrc` the interface created by one
of the six cases. -/
def new_Interface (this : StgDriver) (host : Host) (world : stg_world_t)
    (player_id : player_device_id_t) (model : String) : Option Interface :=
  match player_id.code with
  | .PLAYER_SIMULATION_CODE => some (InterfaceSimulation host player_id)
  | .PLAYER_POSITION_CODE =>
    some (InterfaceModel this host world player_id model .STG_MODEL_POSITION)
  | .PLAYER_LASER_CODE =>
    some (InterfaceModel this host world player_id model .STG_MODEL_LASER)
  | .PLAYER_FIDUCIAL_CODE =>
    some (InterfaceModel this host world player_id model .STG_MODEL_FIDUCIAL)
  | .PLAYER_BLOBFINDER_CODE =>
    some (InterfaceModel this host world player_id model .STG_MODEL_BLOB)
  | .PLAYER_SONAR_CODE =>
    some (InterfaceModel this host world player_id model .STG_MODEL_RANGER)
  | .other _ => none

/-- The `for` loop of the constructor (lines 265-352) over the declared
identifiers; every `SetError(..); return;` ends the loop.  After the `switch`
`ifsrc` is the result of a `new` expression and so never NULL: the `else` of
`if( ifsrc )` (lines 344-351, `SetError(-3)`) is never taken and has no
counterpart here. -/
def StgDriver_loop (host : Host) (world : stg_world_t) :
    List Declaration → StgDriver → StgDriver
  | [], this => this
  | decl :: rest, this =>
    match decl.player_id with
    | none => { this with error := -1 }
    | some player_id =>
      match new_Interface this host world player_id decl.model with
      | none => { this with error := -1 }
      | some ifsrc =>
        if host.AddInterface this.devices ifsrc ≠ 0 then { this with error := -2 }
        else StgDriver_loop host world rest
          { this with devices := this.devices ++ [ifsrc] }

set_option linter.dupNamespace false in
/-- The constructor `StgDriver::StgDriver` (lines 250-354). -/
def StgDriver.StgDriver (host : Host) (world : stg_world_t)
    (decls : List Declaration) : Stage.StgDriver :=
  StgDriver_loop host world decls { devices := [], error := 0 }

/-! ## The per-cycle pass -/

/-- The calls `StgDriver::Update` makes, in the order it makes them.  The two
pulls record the maximum length passed; `Command`, `Configure` and `Publish` are
the calls on the interface (the entity-facing ones). -/
inductive Action where
  | GetCommand (interface : Interface) (len : Nat)
  | Command (interface : Interface) (cmd_len : Nat)
  | GetConfig (interface : Interface) (len : Nat)
  | Configure (interface : Interface) (client : Nat) (cfg_len : Int)
  | Publish (interface : Interface)
deriving DecidableEq, Repr

/-- Is the action a call on the interface (rather than a pull from Player)? -/
def Action.entity_facing : Action → Bool
  | .Command _ _ => true
  | .Configure _ _ _ => true
  | .Publish _ => true
  | _ => false

/-- The interface an action is performed for. -/
def Action.interface : Action → Interface
  | .GetCommand i _ => i
  | .Command i _ => i
  | .GetConfig i _ => i
  | .Configure i _ _ => i
  | .Publish i => i

/-- What `Update` uses from outside the driver source, over a state `σ` of
everything outside the driver (Player's buffers and queues, the shared
`stage_buffer`, the entities): the constant `PLAYER_MAX_MESSAGE_SIZE`, the pulls
`GetCommand` (returning the command length) and `GetConfig` (returning the
request length and the client), and the interface methods. -/
structure Player (σ : Type) where
  PLAYER_MAX_MESSAGE_SIZE : Nat
  GetCommand : σ → player_device_id_t → Nat → Nat × σ
  GetConfig : σ → player_device_id_t → Nat → (Int × Nat) × σ
  Command : σ → Interface → Nat → σ
  Configure : σ → Interface → Nat → Int → σ
  Publish : σ → Interface → σ

/-- The command step of the loop body of `Update` (lines 517-532). -/
def Update_command {σ : Type} (P : Player σ) (interface : Interface)
    (s : σ × List Action) : σ × List Action :=
  if interface.cmd_len > 0 then
    let r := P.GetCommand s.1 interface.id interface.cmd_len
    let log := s.2 ++ [Action.GetCommand interface interface.cmd_len]
    if r.1 > 0 then
      (P.Command r.2 interface r.1, log ++ [Action.Command interface r.1])
    else (r.2, log)
  else s

/-- The configuration step of the loop body of `Update` (lines 535-544). -/
def Update_config {σ : Type} (P : Player σ) (interface : Interface)
    (s : σ × List Action) : σ × List Action :=
  if interface.req_qlen > 0 then
    let r := P.GetConfig s.1 interface.id P.PLAYER_MAX_MESSAGE_SIZE
    let log := s.2 ++ [Action.GetConfig interface P.PLAYER_MAX_MESSAGE_SIZE]
    if r.1.1 > 0 then
      (P.Configure r.2 interface r.1.2 r.1.1,
        log ++ [Action.Configure interface r.1.2 r.1.1])
    else (r.2, log)
  else s

/-- The body of the loop of `Update` (lines 510-546) for one device record. -/
def Update_body {σ : Type} (P : Player σ) (interface : Interface)
    (s : σ × List Action) : σ × List Action :=
  let s1 := Update_command P interface s
  let s2 := Update_config P interface s1
  (P.Publish s2.1 interface, s2.2 ++ [Action.Publish interface])

/-- The loop of `Update` (lines 508-547) over the device array. -/
def Update_loop {σ : Type} (P : Player σ) :
    List Interface → σ × List Action → σ × List Action
  | [], s => s
  | interface :: rest, s => Update_loop P rest (Update_body P interface s)

/-- The method `StgDriver::Update` (lines 506-551): the state afterwards and the
calls made. -/
def StgDriver.Update {σ : Type} (this : Stage.StgDriver) (P : Player σ) (st : σ) :
    σ × List Action :=
  Update_loop P this.devices (st, [])

/-! ## The per-cycle pass as the specification words it -/

/-- The block of entity-facing steps of one Binding as the specification words
it, from the state `st` in which the Binding is reached: command application if
the entity accepts commands and a command is pending, then configuration
handling if the entity accepts requests and a request is pending, then one
publish. -/
def spec_block {σ : Type} (P : Player σ) (st : σ) (b : Interface) : List Action :=
  let pending_cmd := P.GetCommand st b.id b.cmd_len
  let cmd :=
    if 0 < b.cmd_len ∧ 0 < pending_cmd.1 then [Action.Command b pending_cmd.1] else []
  let st1 := (Update_command P b (st, [])).1
  let pending_req := P.GetConfig st1 b.id P.PLAYER_MAX_MESSAGE_SIZE
  let cfg :=
    if 0 < b.req_qlen ∧ 0 < pending_req.1.1 then
      [Action.Configure b pending_req.1.2 pending_req.1.1]
    else []
  cmd ++ cfg ++ [Action.Publish b]

/-- One block per Binding, in Binding Set order; each Binding is reached in the
state left by the Bindings before it. -/
def spec_blocks {σ : Type} (P : Player σ) : σ → List Interface → List (List Action)
  | _, [] => []
  | st, b :: rest =>
    spec_block P st b :: spec_blocks P (Update_body P b (st, [])).1 rest

/-- The calls of one pass for one Binding `b`, reached in the state `st`, as the
amended dispatch rule words them: the command is pulled when `b.cmd_len > 0`
and applied when one is pending (the pull returned a positive length); then the
configuration request is pulled when `b.req_qlen > 0` and handled when one is
pending; then the observation is published.  The activity flag of `b` plays no
part. -/
def spec_calls {σ : Type} (P : Player σ) (st : σ) (b : Interface) : List Action :=
  let pending_cmd := (P.GetCommand st b.id b.cmd_len).1
  let st1 := (Update_command P b (st, [])).1
  let pending_req := (P.GetConfig st1 b.id P.PLAYER_MAX_MESSAGE_SIZE).1
  (if 0 < b.cmd_len then
      Action.GetCommand b b.cmd_len ::
        (if 0 < pending_cmd then [Action.Command b pending_cmd] else [])
    else []) ++
  (if 0 < b.req_qlen then
      Action.GetConfig b P.PLAYER_MAX_MESSAGE_SIZE ::
        (if 0 < pending_req.1 then [Action.Configure b pending_req.2 pending_req.1]
          else [])
    else []) ++
  [Action.Publish b]

/-- The state in which one pass, started in `st`, reaches the Binding that
follows the Bindings `before`. -/
def reached {σ : Type} (P : Player σ) (before : List Interface) (st : σ) : σ :=
  (Update_loop P before (st, [])).1

/-! ## A Player that keeps one slot per device -/

/-- A Player whose state is one slot `δ` per device identifier (the command
buffer, request queue and data of that device): every pull and every interface
method reads and writes the slot of its own device only. -/
structure DevicePlayer (δ : Type) where
  PLAYER_MAX_MESSAGE_SIZE : Nat
  GetCommand : δ → Nat → Nat × δ
  GetConfig : δ → Nat → (Int × Nat) × δ
  Command : δ → Interface → Nat → δ
  Configure : δ → Interface → Nat → Int → δ
  Publish : δ → Interface → δ

/-- The Player made of the slots of a `DevicePlayer`. -/
def DevicePlayer.toPlayer {δ : Type} (D : DevicePlayer δ) :
    Player (player_device_id_t → δ) where
  PLAYER_MAX_MESSAGE_SIZE := D.PLAYER_MAX_MESSAGE_SIZE
  GetCommand st id len :=
    ((D.GetCommand (st id) len).1, Function.update st id (D.GetCommand (st id) len).2)
  GetConfig st id len :=
    ((D.GetConfig (st id) len).1, Function.update st id (D.GetConfig (st id) len).2)
  Command st i n := Function.update st i.id (D.Command (st i.id) i n)
  Configure st i c n := Function.update st i.id (D.Configure (st i.id) i c n)
  Publish st i := Function.update st i.id (D.Publish (st i.id) i)

/-- The loop body of `Update` seen from the slot of the device it handles. -/
def DevicePlayer.body {δ : Type} (D : DevicePlayer δ) (b : Interface) (x : δ) :
    δ × List Action :=
  let c := D.GetCommand x b.cmd_len
  let s1 : δ × List Action :=
    if 0 < b.cmd_len then
      if 0 < c.1 then
        (D.Command c.2 b c.1, [Action.GetCommand b b.cmd_len, Action.Command b c.1])
      else (c.2, [Action.GetCommand b b.cmd_len])
    else (x, [])
  let q := D.GetConfig s1.1 D.PLAYER_MAX_MESSAGE_SIZE
  let s2 : δ × List Action :=
    if 0 < b.req_qlen then
      if 0 < q.1.1 then
        (D.Configure q.2 b q.1.2 q.1.1,
          s1.2 ++ [Action.GetConfig b D.PLAYER_MAX_MESSAGE_SIZE,
            Action.Configure b q.1.2 q.1.1])
      else (q.2, s1.2 ++ [Action.GetConfig b D.PLAYER_MAX_MESSAGE_SIZE])
    else s1
  (D.Publish s2.1 b, s2.2 ++ [Action.Publish b])

/-! ## Concrete worlds, configurations and Players used below -/

namespace Example

open stg_model_type_t player_code_t

/-- The laser `L1` (model 2). -/
def L1 : stg_model_t := .mk 2 "L1" STG_MODEL_LASER []

/-- The laser `L2` (model 3). -/
def L2 : stg_model_t := .mk 3 "L2" STG_MODEL_LASER []

/-- The position model `P` with the lasers `L1`, `L2` under it. -/
def P : stg_model_t := .mk 1 "P" STG_MODEL_POSITION [L1, L2]

/-- The root `R` of type `base` with the single child `P`. -/
def R : stg_model_t := .mk 0 "R" STG_MODEL_BASIC [P]

/-- A root `T` of type `base` whose first child `A` (type `base`) holds the laser
`L1`, and whose second child is the laser `L2`. -/
def T : stg_model_t := .mk 0 "T" STG_MODEL_BASIC [.mk 1 "A" STG_MODEL_BASIC [L1], L2]

/-- The laser `L3` (model 4). -/
def L3 : stg_model_t := .mk 4 "L3" STG_MODEL_LASER []

/-- A root `W` of type `base` whose first child `A` (type `base`) holds the laser
`L1`, and whose later children are the lasers `L2` and `L3`. -/
def W : stg_model_t :=
  .mk 0 "W" STG_MODEL_BASIC [.mk 1 "A" STG_MODEL_BASIC [L1], L2, L3]

/-- A host in which a position device takes commands of 8 bytes, every device
has a request queue of depth 1, and `AddInterface` succeeds. -/
def host : Host where
  data_len := fun _ => 16
  cmd_len := fun c => if c = PLAYER_POSITION_CODE then 8 else 0
  req_qlen := fun _ => 1
  AddInterface := fun _ _ => 0

/-- The device identifier `6665:code:index`. -/
def dev (code : player_code_t) (index : Nat) : player_device_id_t :=
  { port := 6665, code := code, index := index }

/-- The declaration of device `6665:code:index` under the model named `model`. -/
def provides (code : player_code_t) (index : Nat) (model : String) : Declaration :=
  { player_id := some (dev code index), model := model }

/-- A Binding of `6665:code:index` to the model with identity `mod`. -/
def binding (code : player_code_t) (index : Nat) (mod : Nat) : Interface :=
  { id := dev code index, mod := some mod, data_len := 16,
    cmd_len := if code = PLAYER_POSITION_CODE then 8 else 0, req_qlen := 1,
    active := false }

/-- The client side of one device in the example Player: the length of the
pending command (0 for none) and the lengths of the queued requests. -/
structure Slot where
  command : Nat
  requests : List Nat
deriving DecidableEq, Repr

/-- An example Player with messages of at most 8192 bytes.  A command that fits
the length asked for is copied, a larger one is not (length 0); the oldest
request is popped and copied if it fits, and reported as an error (-1) if it
does not; the interface methods leave the client side alone. -/
def player : DevicePlayer Slot where
  PLAYER_MAX_MESSAGE_SIZE := 8192
  GetCommand := fun x len => (if x.command ≤ len then x.command else 0, x)
  GetConfig := fun x len =>
    match x.requests with
    | [] => ((0, 0), x)
    | r :: rest =>
      (if r ≤ len then ((r : Int), 1) else (-1, 0), { x with requests := rest })
  Command := fun x _ _ => x
  Configure := fun x _ _ _ => x
  Publish := fun x _ => x

/-- A command of 8 bytes and a request of 4 bytes pending on position device 0,
nothing on the others. -/
def busy : player_device_id_t → Slot :=
  fun id => if id = dev PLAYER_POSITION_CODE 0 then { command := 8, requests := [4] }
    else { command := 0, requests := [] }

/-- A request of 9000 bytes pending on position device 0, a request of 4 bytes
on laser device 0. -/
def oversized : player_device_id_t → Slot :=
  fun id => if id = dev PLAYER_POSITION_CODE 0 then { command := 0, requests := [9000] }
    else if id = dev PLAYER_LASER_CODE 0 then { command := 0, requests := [4] }
    else { command := 0, requests := [] }

/-- As `oversized`, without the request of 9000 bytes. -/
def clean : player_device_id_t → Slot :=
  fun id => if id = dev PLAYER_LASER_CODE 0 then { command := 0, requests := [4] }
    else { command := 0, requests := [] }

end Example

/-! ## Properties of the resolver -/

theorem preorder_mk (i : Nat) (t : String) (ty : stg_model_type_t)
    (cs : List stg_model_t) :
    preorder (.mk i t ty cs) = .mk i t ty cs :: preorder_children cs := by
  simp [preorder]

theorem preorder_children_cons (c : stg_model_t) (rest : List stg_model_t) :
    preorder_children (c :: rest) = preorder c ++ preorder_children rest := by
  simp [preorder_children]

theorem preorder_children_append (xs ys : List stg_model_t) :
    preorder_children (xs ++ ys) = preorder_children xs ++ preorder_children ys := by
  induction xs with
  | nil => simp [preorder_children]
  | cons x xs ih => simp [preorder_children_cons, ih]

theorem model_match_mk (i : Nat) (t : String) (ty tp : stg_model_type_t)
    (cs : List stg_model_t) (devices : List Interface) :
    model_match (.mk i t ty cs) tp devices =
      if ty = tp then some (.mk i t ty cs) else model_match_children cs tp devices := by
  simp [model_match]

theorem model_match_children_cons (c : stg_model_t) (rest : List stg_model_t)
    (tp : stg_model_type_t) (devices : List Interface) :
    model_match_children (c :: rest) tp devices =
      match model_match c tp devices with
      | some m => if already_used m devices then none else some m
      | none => model_match_children rest tp devices := by
  simp [model_match_children]

mutual

/-- A subtree without an entity of the required type yields no match. -/
theorem model_match_eq_none (tp : stg_model_type_t) (devices : List Interface) :
    (mod : stg_model_t) → (∀ m ∈ preorder mod, m.type ≠ tp) →
      model_match mod tp devices = none
  | .mk i t ty cs, h => by
    have hroot : ty ≠ tp := h (.mk i t ty cs) (by simp [preorder_mk])
    rw [model_match_mk, if_neg hroot]
    exact model_match_children_eq_none tp devices cs
      (fun m hm => h m (by simp [preorder_mk, hm]))

/-- Sibling subtrees without an entity of the required type yield no match. -/
theorem model_match_children_eq_none (tp : stg_model_type_t)
    (devices : List Interface) :
    (cs : List stg_model_t) → (∀ m ∈ preorder_children cs, m.type ≠ tp) →
      model_match_children cs tp devices = none
  | [], _ => by simp [model_match_children]
  | c :: rest, h => by
    rw [model_match_children_cons,
      model_match_eq_none tp devices c
        (fun m hm => h m (by simp [preorder_children_cons, hm]))]
    exact model_match_children_eq_none tp devices rest
      (fun m hm => h m (by simp [preorder_children_cons, hm]))

end

/-- The loop over the children skips a prefix of subtrees that hold no entity
of the required type. -/
theorem model_match_children_skip (tp : stg_model_type_t) (devices : List Interface)
    (pre rest : List stg_model_t) (h : ∀ m ∈ preorder_children pre, m.type ≠ tp) :
    model_match_children (pre ++ rest) tp devices =
      model_match_children rest tp devices := by
  induction pre with
  | nil => rfl
  | cons c pre ih =>
    have hc : ∀ m ∈ preorder c, m.type ≠ tp :=
      fun m hm => h m (by simp [preorder_children_cons, hm])
    have hpre : ∀ m ∈ preorder_children pre, m.type ≠ tp :=
      fun m hm => h m (by simp [preorder_children_cons, hm])
    rw [List.cons_append, model_match_children_cons,
      model_match_eq_none tp devices c hc]
    exact ih hpre

mutual

/-- First match, on a subtree. -/
theorem model_match_first (tp : stg_model_type_t) (devices : List Interface)
    (m : stg_model_t) (hm : already_used m devices = false) :
    (mod : stg_model_t) →
      (preorder mod).find? (fun x => decide (x.type = tp)) = some m →
      model_match mod tp devices = some m
  | .mk i t ty cs, h => by
    rw [model_match_mk]
    rw [preorder_mk, List.find?_cons] at h
    by_cases hty : ty = tp
    · simp [stg_model_t.type, hty] at h
      simp [hty, h]
    · simp [stg_model_t.type, hty] at h
      rw [if_neg hty]
      exact model_match_children_first tp devices m hm cs h

/-- First match, on a sequence of sibling subtrees. -/
theorem model_match_children_first (tp : stg_model_type_t) (devices : List Interface)
    (m : stg_model_t) (hm : already_used m devices = false) :
    (cs : List stg_model_t) →
      (preorder_children cs).find? (fun x => decide (x.type = tp)) = some m →
      model_match_children cs tp devices = some m
  | [], h => by simp [preorder_children] at h
  | c :: rest, h => by
    rw [preorder_children_cons, List.find?_append] at h
    rw [model_match_children_cons]
    cases hc : (preorder c).find? (fun x => decide (x.type = tp)) with
    | some m1 =>
      rw [hc] at h
      simp at h
      subst h
      rw [model_match_first tp devices m1 hm c hc]
      simp [hm]
    | none =>
      rw [hc] at h
      simp at h
      have hnone : model_match c tp devices = none :=
        model_match_eq_none tp devices c (by
          intro x hx
          have := List.find?_eq_none.mp hc x hx
          simpa using this)
      rw [hnone]
      exact model_match_children_first tp devices m hm rest h

end

mutual

/-- Soundness of the search on a subtree. -/
theorem model_match_sound (tp : stg_model_type_t) (devices : List Interface)
    (m : stg_model_t) :
    (mod : stg_model_t) → model_match mod tp devices = some m →
      m ∈ preorder mod ∧ m.type = tp ∧ (m = mod ∨ already_used m devices = false)
  | .mk i t ty cs, h => by
    rw [model_match_mk] at h
    by_cases hty : ty = tp
    · rw [if_pos hty] at h
      simp at h
      subst h
      simp [preorder_mk, stg_model_t.type, hty]
    · rw [if_neg hty] at h
      have ih := model_match_children_sound tp devices m cs h
      exact ⟨by simp [preorder_mk, ih.1], ih.2.1, Or.inr ih.2.2⟩

/-- Soundness of the search on a sequence of sibling subtrees: a match found
below a child has passed the test against `devices`. -/
theorem model_match_children_sound (tp : stg_model_type_t) (devices : List Interface)
    (m : stg_model_t) :
    (cs : List stg_model_t) → model_match_children cs tp devices = some m →
      m ∈ preorder_children cs ∧ m.type = tp ∧ already_used m devices = false
  | [], h => by simp [model_match_children] at h
  | c :: rest, h => by
    rw [model_match_children_cons] at h
    cases hc : model_match c tp devices with
    | some m1 =>
      rw [hc] at h
      by_cases hu : already_used m1 devices = true
      · simp [hu] at h
      · simp [hu] at h
        subst h
        have ih := model_match_sound tp devices m1 c hc
        exact ⟨by simp [preorder_children_cons, ih.1], ih.2.1, by simpa using hu⟩
    | none =>
      rw [hc] at h
      have ih := model_match_children_sound tp devices m rest h
      exact ⟨by simp [preorder_children_cons, ih.1], ih.2.1, ih.2.2⟩

end

/-! ## Properties of the per-cycle pass -/

theorem Update_command_log {σ : Type} (P : Player σ) (b : Interface) (st : σ)
    (log : List Action) :
    Update_command P b (st, log) =
      ((Update_command P b (st, [])).1, log ++ (Update_command P b (st, [])).2) := by
  unfold Update_command
  by_cases h1 : b.cmd_len > 0
  · by_cases h2 : (P.GetCommand st b.id b.cmd_len).1 > 0 <;> simp [h1, h2]
  · simp [h1]

theorem Update_config_log {σ : Type} (P : Player σ) (b : Interface) (st : σ)
    (log : List Action) :
    Update_config P b (st, log) =
      ((Update_config P b (st, [])).1, log ++ (Update_config P b (st, [])).2) := by
  unfold Update_config
  by_cases h1 : b.req_qlen > 0
  · by_cases h2 : (P.GetConfig st b.id P.PLAYER_MAX_MESSAGE_SIZE).1.1 > 0 <;>
      simp [h1, h2]
  · simp [h1]

theorem Update_body_log {σ : Type} (P : Player σ) (b : Interface) (st : σ)
    (log : List Action) :
    Update_body P b (st, log) =
      ((Update_body P b (st, [])).1, log ++ (Update_body P b (st, [])).2) := by
  unfold Update_body
  simp only []
  rw [Update_command_log P b st log, Update_config_log P b _ (log ++ _)]
  rw [Update_config_log P b _ ((Update_command P b (st, [])).2)]
  simp [List.append_assoc]

theorem Update_loop_log {σ : Type} (P : Player σ) (devices : List Interface) (st : σ)
    (log : List Action) :
    Update_loop P devices (st, log) =
      ((Update_loop P devices (st, [])).1, log ++ (Update_loop P devices (st, [])).2) := by
  induction devices generalizing st log with
  | nil => simp [Update_loop]
  | cons b rest ih =>
    simp only [Update_loop]
    rw [Update_body_log P b st log, ih]
    rw [ih (Update_body P b (st, [])).1 (Update_body P b (st, [])).2]
    simp [List.append_assoc]

theorem Update_loop_cons {σ : Type} (P : Player σ) (b : Interface)
    (rest : List Interface) (st : σ) :
    (Update_loop P (b :: rest) (st, [])).2 =
      (Update_body P b (st, [])).2 ++
        (Update_loop P rest ((Update_body P b (st, [])).1, [])).2 := by
  simp only [Update_loop]
  rw [show Update_body P b (st, []) =
    ((Update_body P b (st, [])).1, (Update_body P b (st, [])).2) from rfl]
  rw [Update_loop_log]

/-- The calls of one loop body, listed. -/
theorem Update_body_trace {σ : Type} (P : Player σ) (b : Interface) (st : σ) :
    (Update_body P b (st, [])).2 =
      (Update_command P b (st, [])).2 ++
        (Update_config P b ((Update_command P b (st, [])).1, [])).2 ++
        [Action.Publish b] := by
  unfold Update_body
  simp only []
  rw [show Update_command P b (st, []) =
    ((Update_command P b (st, [])).1, (Update_command P b (st, [])).2) from rfl]
  rw [Update_config_log]

theorem Update_command_trace {σ : Type} (P : Player σ) (b : Interface) (st : σ) :
    (Update_command P b (st, [])).2 =
      if 0 < b.cmd_len then
        if 0 < (P.GetCommand st b.id b.cmd_len).1 then
          [Action.GetCommand b b.cmd_len,
            Action.Command b (P.GetCommand st b.id b.cmd_len).1]
        else [Action.GetCommand b b.cmd_len]
      else [] := by
  unfold Update_command
  by_cases h1 : 0 < b.cmd_len
  · by_cases h2 : 0 < (P.GetCommand st b.id b.cmd_len).1 <;> simp [h1, h2]
  · simp [h1]

theorem Update_config_trace {σ : Type} (P : Player σ) (b : Interface) (st : σ) :
    (Update_config P b (st, [])).2 =
      if 0 < b.req_qlen then
        if 0 < (P.GetConfig st b.id P.PLAYER_MAX_MESSAGE_SIZE).1.1 then
          [Action.GetConfig b P.PLAYER_MAX_MESSAGE_SIZE,
            Action.Configure b (P.GetConfig st b.id P.PLAYER_MAX_MESSAGE_SIZE).1.2
              (P.GetConfig st b.id P.PLAYER_MAX_MESSAGE_SIZE).1.1]
        else [Action.GetConfig b P.PLAYER_MAX_MESSAGE_SIZE]
      else [] := by
  unfold Update_config
  by_cases h1 : 0 < b.req_qlen
  · by_cases h2 : 0 < (P.GetConfig st b.id P.PLAYER_MAX_MESSAGE_SIZE).1.1 <;>
      simp [h1, h2]
  · simp [h1]

/-- The entity-facing calls of one loop body are the block of the
specification. -/
theorem Update_body_entity_facing {σ : Type} (P : Player σ) (b : Interface) (st : σ) :
    (Update_body P b (st, [])).2.filter Action.entity_facing = spec_block P st b := by
  rw [Update_body_trace, Update_command_trace, Update_config_trace]
  unfold spec_block
  simp only []
  by_cases h1 : 0 < b.cmd_len <;>
    by_cases h2 : 0 < (P.GetCommand st b.id b.cmd_len).1 <;>
    by_cases h3 : 0 < b.req_qlen <;>
    by_cases h4 : 0 < (P.GetConfig (Update_command P b (st, [])).1 b.id
        P.PLAYER_MAX_MESSAGE_SIZE).1.1 <;>
    simp [h1, h2, h3, h4, List.filter, Action.entity_facing]

theorem Update_loop_entity_facing {σ : Type} (P : Player σ) (devices : List Interface)
    (st : σ) :
    (Update_loop P devices (st, [])).2.filter Action.entity_facing =
      (spec_blocks P st devices).flatten := by
  induction devices generalizing st with
  | nil => simp [Update_loop, spec_blocks]
  | cons b rest ih =>
    rw [Update_loop_cons, List.filter_append, Update_body_entity_facing, ih]
    simp [spec_blocks]

theorem spec_blocks_length {σ : Type} (P : Player σ) (devices : List Interface)
    (st : σ) : (spec_blocks P st devices).length = devices.length := by
  induction devices generalizing st with
  | nil => simp [spec_blocks]
  | cons b rest ih => simp [spec_blocks, ih]

theorem Update_command_interface {σ : Type} (P : Player σ) (b : Interface) (st : σ)
    (a : Action) (ha : a ∈ (Update_command P b (st, [])).2) : a.interface = b := by
  rw [Update_command_trace] at ha
  split_ifs at ha
  · simp only [List.mem_cons, List.mem_singleton, List.not_mem_nil, or_false] at ha
    rcases ha with rfl | rfl <;> rfl
  · simp only [List.mem_singleton] at ha
    subst ha
    rfl
  · simp at ha

theorem Update_config_interface {σ : Type} (P : Player σ) (b : Interface) (st : σ)
    (a : Action) (ha : a ∈ (Update_config P b (st, [])).2) : a.interface = b := by
  rw [Update_config_trace] at ha
  split_ifs at ha
  · simp only [List.mem_cons, List.mem_singleton, List.not_mem_nil, or_false] at ha
    rcases ha with rfl | rfl <;> rfl
  · simp only [List.mem_singleton] at ha
    subst ha
    rfl
  · simp at ha

/-- Every call of one loop body is made for the device record of that body. -/
theorem Update_body_interface {σ : Type} (P : Player σ) (b : Interface) (st : σ)
    (a : Action) (ha : a ∈ (Update_body P b (st, [])).2) : a.interface = b := by
  rw [Update_body_trace] at ha
  simp only [List.mem_append, List.mem_singleton] at ha
  rcases ha with (h | h) | h
  · exact Update_command_interface P b st a h
  · exact Update_config_interface P b _ a h
  · subst h
    rfl

/-- What one loop body calls, whatever the state and the device record. -/
theorem Update_body_calls {σ : Type} (P : Player σ) (b : Interface) (st : σ) :
    Action.Publish b ∈ (Update_body P b (st, [])).2 ∧
    (0 < b.cmd_len → Action.GetCommand b b.cmd_len ∈ (Update_body P b (st, [])).2) ∧
    (0 < b.req_qlen →
      Action.GetConfig b P.PLAYER_MAX_MESSAGE_SIZE ∈ (Update_body P b (st, [])).2) := by
  rw [Update_body_trace, Update_command_trace, Update_config_trace]
  refine ⟨by simp, ?_, ?_⟩
  · intro h1
    by_cases h2 : 0 < (P.GetCommand st b.id b.cmd_len).1 <;> simp [h1, h2]
  · intro h3
    by_cases h4 : 0 < (P.GetConfig (Update_command P b (st, [])).1 b.id
        P.PLAYER_MAX_MESSAGE_SIZE).1.1 <;> simp [h3, h4]

theorem Update_command_cases {σ : Type} (P : Player σ) (b : Interface) (st : σ)
    (a : Action) (ha : a ∈ (Update_command P b (st, [])).2) :
    a = Action.GetCommand b b.cmd_len ∨
      (a = Action.Command b (P.GetCommand st b.id b.cmd_len).1 ∧
        0 < (P.GetCommand st b.id b.cmd_len).1) := by
  rw [Update_command_trace] at ha
  split_ifs at ha with h1 h2
  · simp only [List.mem_cons, List.mem_singleton, List.not_mem_nil, or_false] at ha
    rcases ha with h | h
    · exact Or.inl h
    · exact Or.inr ⟨h, h2⟩
  · simp only [List.mem_singleton] at ha
    exact Or.inl ha
  · simp at ha

theorem Update_config_cases {σ : Type} (P : Player σ) (b : Interface) (st : σ)
    (a : Action) (ha : a ∈ (Update_config P b (st, [])).2) :
    a = Action.GetConfig b P.PLAYER_MAX_MESSAGE_SIZE ∨
      (a = Action.Configure b (P.GetConfig st b.id P.PLAYER_MAX_MESSAGE_SIZE).1.2
          (P.GetConfig st b.id P.PLAYER_MAX_MESSAGE_SIZE).1.1 ∧
        0 < (P.GetConfig st b.id P.PLAYER_MAX_MESSAGE_SIZE).1.1) := by
  rw [Update_config_trace] at ha
  split_ifs at ha with h1 h2
  · simp only [List.mem_cons, List.mem_singleton, List.not_mem_nil, or_false] at ha
    rcases ha with h | h
    · exact Or.inl h
    · exact Or.inr ⟨h, h2⟩
  · simp only [List.mem_singleton] at ha
    exact Or.inl ha
  · simp at ha

/-- With a Player of per-device slots, one loop body rewrites the slot of its
own device and nothing else. -/
theorem toPlayer_body {δ : Type} (D : DevicePlayer δ) (b : Interface)
    (st : player_device_id_t → δ) :
    Update_body D.toPlayer b (st, []) =
      (Function.update st b.id (D.body b (st b.id)).1, (D.body b (st b.id)).2) := by
  unfold Update_body Update_command Update_config DevicePlayer.body DevicePlayer.toPlayer
  by_cases h1 : 0 < b.cmd_len <;>
    by_cases h2 : 0 < (D.GetCommand (st b.id) b.cmd_len).1 <;>
    by_cases h3 : 0 < b.req_qlen <;>
    simp [h1, h2, h3] <;>
    split_ifs <;> simp

theorem Update_loop_state {σ : Type} (P : Player σ) (b : Interface)
    (rest : List Interface) (st : σ) :
    (Update_loop P (b :: rest) (st, [])).1 =
      (Update_loop P rest ((Update_body P b (st, [])).1, [])).1 := by
  simp only [Update_loop]
  rw [show Update_body P b (st, []) =
    ((Update_body P b (st, [])).1, (Update_body P b (st, [])).2) from rfl]
  rw [Update_loop_log]

/-- With a Player of per-device slots, two passes started from states that
differ only in the slot of device `d` make the same calls for every device other
than `d`, and end in states that differ only in the slot of `d`. -/
theorem toPlayer_loop_independent {δ : Type} (D : DevicePlayer δ)
    (d : player_device_id_t) (devices : List Interface)
    (st st' : player_device_id_t → δ) (h : ∀ id, id ≠ d → st id = st' id) :
    (∀ id, id ≠ d →
      (Update_loop D.toPlayer devices (st, [])).1 id =
        (Update_loop D.toPlayer devices (st', [])).1 id) ∧
    (Update_loop D.toPlayer devices (st, [])).2.filter
        (fun a => decide (a.interface.id ≠ d)) =
      (Update_loop D.toPlayer devices (st', [])).2.filter
        (fun a => decide (a.interface.id ≠ d)) := by
  induction devices generalizing st st' with
  | nil => exact ⟨by simpa [Update_loop] using h, by simp [Update_loop]⟩
  | cons b rest ih =>
    rw [Update_loop_cons, Update_loop_cons, Update_loop_state, Update_loop_state,
      List.filter_append, List.filter_append]
    by_cases hb : b.id = d
    · have hagree : ∀ id, id ≠ d →
          (Update_body D.toPlayer b (st, [])).1 id =
            (Update_body D.toPlayer b (st', [])).1 id := by
        intro id hid
        rw [toPlayer_body, toPlayer_body]
        simp only []
        rw [Function.update_noteq (by rw [hb]; exact hid),
          Function.update_noteq (by rw [hb]; exact hid)]
        exact h id hid
      have hnil : ∀ s : player_device_id_t → δ,
          (Update_body D.toPlayer b (s, [])).2.filter
            (fun a => decide (a.interface.id ≠ d)) = [] := by
        intro s
        rw [List.filter_eq_nil_iff]
        intro a ha
        have := Update_body_interface D.toPlayer b s a ha
        simp [this, hb]
      have hrec := ih _ _ hagree
      rw [hnil st, hnil st']
      exact ⟨hrec.1, by simpa using hrec.2⟩
    · have hslot : st b.id = st' b.id := h b.id hb
      have hagree : ∀ id, id ≠ d →
          (Update_body D.toPlayer b (st, [])).1 id =
            (Update_body D.toPlayer b (st', [])).1 id := by
        intro id hid
        rw [toPlayer_body, toPlayer_body]
        simp only []
        rw [hslot]
        by_cases hid2 : id = b.id
        · subst hid2
          simp
        · rw [Function.update_noteq hid2, Function.update_noteq hid2]
          exact h id hid
      have htrace : (Update_body D.toPlayer b (st, [])).2 =
          (Update_body D.toPlayer b (st', [])).2 := by
        rw [toPlayer_body, toPlayer_body]
        simp only []
        rw [hslot]
      have hrec := ih _ _ hagree
      rw [htrace]
      exact ⟨hrec.1, by rw [hrec.2]⟩

/-! ## Properties of the constructor -/

theorem already_used_eq_false_iff (m : stg_model_t) (devices : List Interface) :
    already_used m devices = false ↔ ∀ d ∈ devices, d.mod ≠ some m.id := by
  induction devices with
  | nil => simp [already_used]
  | cons x rest ih =>
    unfold already_used
    by_cases hx : x.mod = some m.id
    · simp [hx]
    · simp [hx, ih]

theorem already_used_eq_true_iff (m : stg_model_t) (devices : List Interface) :
    already_used m devices = true ↔ ∃ d ∈ devices, d.mod = some m.id := by
  induction devices with
  | nil => simp [already_used]
  | cons x rest ih =>
    unfold already_used
    by_cases hx : x.mod = some m.id
    · simp [hx]
    · simp [hx, ih]

/-- The search gives up when the first child that yields a match yields a
claimed one. -/
theorem model_match_child_claimed (i : Nat) (t : String) (ty tp : stg_model_type_t)
    (pre : List stg_model_t) (c : stg_model_t) (post : List stg_model_t)
    (devices : List Interface) (hroot : ty ≠ tp)
    (hpre : ∀ m ∈ preorder_children pre, m.type ≠ tp) (hc : c.type = tp)
    (hclaimed : ∃ d ∈ devices, d.mod = some c.id) :
    model_match (.mk i t ty (pre ++ c :: post)) tp devices = none := by
  have hused : already_used c devices = true :=
    (already_used_eq_true_iff c devices).mpr hclaimed
  rw [model_match_mk, if_neg hroot, model_match_children_skip tp devices pre _ hpre,
    model_match_children_cons]
  cases c with
  | mk ci ct cty ccs =>
    simp only [stg_model_t.type] at hc
    rw [model_match_mk, if_pos hc]
    simp [hused]


/-! ## Further properties of the resolver: the way down to the first match -/

theorem place_append (p q : List Ancestor) (m : stg_model_t) :
    place (p ++ q) m = place q (place p m) := by
  induction p generalizing m with
  | nil => rfl
  | cons a p ih => simp [place, ih]

mutual

/-- A first match that is not the root sits below a chain of ancestors, at each
of which nothing of the type is met before the way down. -/
theorem path_to_first (tp : stg_model_type_t) (m : stg_model_t) :
    (mod : stg_model_t) →
      (preorder mod).find? (fun x => decide (x.type = tp)) = some m →
      mod.type ≠ tp →
      ∃ a path, mod = place (a :: path) m ∧ ∀ g ∈ a :: path, g.clear_before tp
  | .mk i t ty cs, h, hroot => by
    simp only [stg_model_t.type] at hroot
    rw [preorder_mk, List.find?_cons] at h
    have hr : decide ((stg_model_t.mk i t ty cs).type = tp) = false := by
      simpa [stg_model_t.type] using hroot
    rw [hr] at h
    simp only [] at h
    obtain ⟨pre, c, post, hcs, hpre, hc⟩ := path_to_first_children tp m cs h
    subst hcs
    rcases hc with hc | ⟨_, a, path, hplace, hclear⟩
    · subst hc
      refine ⟨⟨i, t, ty, pre, post⟩, [], rfl, ?_⟩
      intro g hg
      simp only [List.mem_singleton] at hg
      subst hg
      exact ⟨hroot, hpre⟩
    · refine ⟨a, path ++ [⟨i, t, ty, pre, post⟩], ?_, ?_⟩
      · rw [← List.cons_append, place_append, ← hplace]
        rfl
      · intro g hg
        rw [← List.cons_append, List.mem_append] at hg
        rcases hg with hg | hg
        · exact hclear g hg
        · simp only [List.mem_singleton] at hg
          subst hg
          exact ⟨hroot, hpre⟩

/-- The first match among sibling subtrees: the siblings before the one that
holds it hold nothing of the type. -/
theorem path_to_first_children (tp : stg_model_type_t) (m : stg_model_t) :
    (cs : List stg_model_t) →
      (preorder_children cs).find? (fun x => decide (x.type = tp)) = some m →
      ∃ pre c post, cs = pre ++ c :: post ∧
        (∀ x ∈ preorder_children pre, x.type ≠ tp) ∧
        (c = m ∨ (c.type ≠ tp ∧
          ∃ a path, c = place (a :: path) m ∧ ∀ g ∈ a :: path, g.clear_before tp))
  | [], h => by simp [preorder_children] at h
  | c :: rest, h => by
    rw [preorder_children_cons, List.find?_append] at h
    cases hc : (preorder c).find? (fun x => decide (x.type = tp)) with
    | some m1 =>
      rw [hc] at h
      simp only [Option.or_some, Option.some.injEq] at h
      subst h
      refine ⟨[], c, rest, rfl, by simp [preorder_children], ?_⟩
      by_cases hty : c.type = tp
      · left
        cases c with
        | mk ci ct cty ccs =>
          have hcc : decide ((stg_model_t.mk ci ct cty ccs).type = tp) = true := by
            simpa using hty
          rw [preorder_mk, List.find?_cons, hcc] at hc
          simpa using hc
      · right
        exact ⟨hty, path_to_first tp m1 c hc hty⟩
    | none =>
      rw [hc] at h
      simp only [Option.none_or] at h
      obtain ⟨pre, c1, post, hrest, hpre, hc1⟩ := path_to_first_children tp m rest h
      refine ⟨c :: pre, c1, post, by rw [hrest]; rfl, ?_, hc1⟩
      intro x hx
      rw [preorder_children_cons, List.mem_append] at hx
      rcases hx with hx | hx
      · have := List.find?_eq_none.mp hc x hx
        simpa using this
      · exact hpre x hx

end

/-- The search at an ancestor: what the child on the way down yields, if it
passes the test against `devices`; the search of the later siblings only if the
child yields nothing. -/
theorem model_match_with_child (tp : stg_model_type_t) (devices : List Interface)
    (a : Ancestor) (c : stg_model_t) (ha : a.clear_before tp) :
    model_match (a.with_child c) tp devices =
      match model_match c tp devices with
      | some x => if already_used x devices then none else some x
      | none => model_match_children a.post tp devices := by
  unfold Ancestor.with_child
  rw [model_match_mk, if_neg ha.1, model_match_children_skip tp devices a.pre _ ha.2,
    model_match_children_cons]

/-- The search from the top of a chain of ancestors, given what the search
yields at the bottom: that, if it is something, and otherwise the first thing
found by the searches of the later siblings along the chain, bottom first. -/
theorem model_match_place (tp : stg_model_type_t) (devices : List Interface)
    (path : List Ancestor) (c : stg_model_t) (r : Option stg_model_t)
    (hr : model_match c tp devices = r)
    (hfree : ∀ x, r = some x → already_used x devices = false)
    (hclear : ∀ g ∈ path, g.clear_before tp) :
    model_match (place path c) tp devices =
      r.or (path.findSome? (fun g => model_match_children g.post tp devices)) := by
  induction path generalizing c r with
  | nil => simp [place, hr]
  | cons g path ih =>
    have hg : g.clear_before tp := hclear g (List.mem_cons_self _ _)
    have hrest : ∀ g1 ∈ path, g1.clear_before tp :=
      fun g1 h1 => hclear g1 (List.mem_cons_of_mem _ h1)
    have hstep := model_match_with_child tp devices g c hg
    rw [hr] at hstep
    cases r with
    | some x =>
      have hx : already_used x devices = false := hfree x rfl
      simp only [hx] at hstep
      have := ih (g.with_child c) (some x) (by simpa using hstep) hfree hrest
      simpa [place] using this
    | none =>
      simp only [] at hstep
      have hfree2 : ∀ x, model_match_children g.post tp devices = some x →
          already_used x devices = false :=
        fun x hx => (model_match_children_sound tp devices x g.post hx).2.2
      have := ih (g.with_child c) _ hstep hfree2 hrest
      rw [place, this, List.findSome?_cons]
      cases model_match_children g.post tp devices <;> simp

/-! ## Further properties of the per-cycle pass -/

theorem Update_loop_append_state {σ : Type} (P : Player σ) (xs ys : List Interface)
    (s : σ × List Action) :
    Update_loop P (xs ++ ys) s = Update_loop P ys (Update_loop P xs s) := by
  induction xs generalizing s with
  | nil => rfl
  | cons x xs ih => simp [Update_loop, ih]

/-- The calls of one pass over `xs ++ ys`: those for `xs`, then those for `ys`
from the state reached after `xs`. -/
theorem Update_loop_append {σ : Type} (P : Player σ) (xs ys : List Interface)
    (st : σ) :
    (Update_loop P (xs ++ ys) (st, [])).2 =
      (Update_loop P xs (st, [])).2 ++ (Update_loop P ys (reached P xs st, [])).2 := by
  rw [Update_loop_append_state]
  rw [show Update_loop P xs (st, []) =
    ((Update_loop P xs (st, [])).1, (Update_loop P xs (st, [])).2) from rfl]
  rw [Update_loop_log]
  rfl

/-- The calls of one loop body are the calls of `spec_calls`. -/
theorem Update_body_spec_calls {σ : Type} (P : Player σ) (b : Interface) (st : σ) :
    (Update_body P b (st, [])).2 = spec_calls P st b := by
  rw [Update_body_trace, Update_command_trace, Update_config_trace]
  unfold spec_calls
  simp only []
  by_cases h1 : 0 < b.cmd_len <;>
    by_cases h2 : 0 < (P.GetCommand st b.id b.cmd_len).1 <;>
    by_cases h3 : 0 < b.req_qlen <;>
    by_cases h4 : 0 < (P.GetConfig (Update_command P b (st, [])).1 b.id
        P.PLAYER_MAX_MESSAGE_SIZE).1.1 <;>
    simp [h1, h2, h3, h4]

/-- The calls of one pass over `pre ++ b :: post`: those for `pre`, then the
loop body for `b` in the state reached after `pre`, then those for `post`. -/
theorem Update_loop_split {σ : Type} (P : Player σ) (pre : List Interface)
    (b : Interface) (post : List Interface) (st : σ) :
    (Update_loop P (pre ++ b :: post) (st, [])).2 =
      (Update_loop P pre (st, [])).2 ++
        (Update_body P b (reached P pre st, [])).2 ++
        (Update_loop P post (reached P (pre ++ [b]) st, [])).2 := by
  have h1 : pre ++ b :: post = (pre ++ [b]) ++ post := by simp
  rw [h1, Update_loop_append, Update_loop_append]
  rfl


/-! ## The claims -/

open Example stg_model_type_t player_code_t

/-- Claim C1, evaluated on the code.  The model `P` has type `position`; the
devices `position:0` and `position:1` are both declared under the name `P`.
With `P` already bound, `model_match` returns its root argument `P` again
without looking at `devices`, so the constructor ends without error and both
Bindings reference model 1 (`P`). -/
theorem C1_root_bound_twice :
    model_match P STG_MODEL_POSITION [binding PLAYER_POSITION_CODE 0 1] = some P ∧
    (StgDriver.StgDriver host [P]
        [provides PLAYER_POSITION_CODE 0 "P", provides PLAYER_POSITION_CODE 1 "P"]).error
      = 0 ∧
    (StgDriver.StgDriver host [P]
        [provides PLAYER_POSITION_CODE 0 "P",
         provides PLAYER_POSITION_CODE 1 "P"]).devices.map (fun b => b.mod)
      = [some 1, some 1] :=
  ⟨rfl, by decide, by decide⟩

/-- Claim C2.  If the subtree of `mod` holds an entity of type `tp` and the first
such entity in depth-first pre-order, `m`, is referenced by no entry of
`devices`, then `model_match` returns exactly `m`. -/
theorem C2_first_match (mod : stg_model_t) (tp : stg_model_type_t)
    (devices : List Interface) (m : stg_model_t)
    (hfirst : first_of_type mod tp = some m)
    (hfree : ∀ d ∈ devices, d.mod ≠ some m.id) :
    model_match mod tp devices = some m :=
  model_match_first tp devices m ((already_used_eq_false_iff m devices).mpr hfree)
    mod hfirst

/-- Claim C2 at the tree `R`: with `P` bound, the first laser `L1` is returned. -/
theorem C2_first_match_witness :
    first_of_type R STG_MODEL_LASER = some L1 ∧
    (∀ d ∈ [binding PLAYER_POSITION_CODE 0 1], d.mod ≠ some L1.id) ∧
    model_match R STG_MODEL_LASER [binding PLAYER_POSITION_CODE 0 1] = some L1 :=
  ⟨rfl, by decide,
    C2_first_match R STG_MODEL_LASER [binding PLAYER_POSITION_CODE 0 1] L1 rfl
      (by decide)⟩

/-- Claim C3 fails as stated.  In the tree `T` the first laser in pre-order is
`L1`, below the child `A`, and `L1` is bound; `model_match` does not report
NotFound but returns `L2`, the later sibling of `A`. -/
theorem C3_search_continues_after_claimed :
    first_of_type T STG_MODEL_LASER = some L1 ∧
    (∃ d ∈ [binding PLAYER_LASER_CODE 0 2], d.mod = some L1.id) ∧
    model_match T STG_MODEL_LASER [binding PLAYER_LASER_CODE 0 2] = some L2 :=
  ⟨rfl, by decide, rfl⟩

/-- Claim C3, amended.  If the first entity of the required type in pre-order,
`m`, is already claimed and is not the root argument itself, then `model_match`
gives up the search below the parent of `m` and returns what the searches of the
later siblings of the ancestors of `m` yield, nearest ancestor first (`path`
lists the ancestors above the parent of `m`, each with the later siblings
`post` of its child on the way down): the first entity one of these searches
returns, and NULL exactly when each of them returns NULL.  What lies below `m`
or in the later siblings of `m` itself plays no part. -/
theorem C3_claimed_first_match (mod : stg_model_t) (tp : stg_model_type_t)
    (devices : List Interface) (m : stg_model_t)
    (hfirst : first_of_type mod tp = some m) (hroot : mod.type ≠ tp)
    (hclaimed : ∃ d ∈ devices, d.mod = some m.id) :
    ∃ a path, mod = place (a :: path) m ∧
      (∀ g ∈ a :: path, g.clear_before tp) ∧
      model_match mod tp devices =
        path.findSome? (fun g => model_match_children g.post tp devices) ∧
      (model_match mod tp devices = none ↔
        ∀ g ∈ path, model_match_children g.post tp devices = none) := by
  obtain ⟨a, path, hplace, hclear⟩ := path_to_first tp m mod hfirst hroot
  have hm : m.type = tp := by
    have := List.find?_some hfirst
    simpa using this
  have ha : a.clear_before tp := hclear a (List.mem_cons_self _ _)
  have hbottom : model_match (a.with_child m) tp devices = none :=
    model_match_child_claimed a.id a.token a.type tp a.pre m a.post devices ha.1 ha.2
      hm hclaimed
  have hres : model_match mod tp devices =
      path.findSome? (fun g => model_match_children g.post tp devices) := by
    have := model_match_place tp devices path (a.with_child m) none hbottom
      (fun x hx => by simp at hx) (fun g hg => hclear g (List.mem_cons_of_mem _ hg))
    rw [hplace]
    simpa [place] using this
  refine ⟨a, path, hplace, hclear, hres, ?_⟩
  rw [hres, List.findSome?_eq_none_iff]

/-- Claim C3, amended, at the tree `W` with `L1` and `L2` bound: the first laser
`L1` is bound, the search of the later siblings `L2`, `L3` of its parent `A`
stops at the bound `L2`, and no model is found although `L3` is free. -/
theorem C3_claimed_first_match_witness :
    first_of_type W STG_MODEL_LASER = some L1 ∧
    W.type ≠ STG_MODEL_LASER ∧
    (∃ d ∈ [binding PLAYER_LASER_CODE 0 2, binding PLAYER_LASER_CODE 1 3],
      d.mod = some L1.id) ∧
    (∀ d ∈ [binding PLAYER_LASER_CODE 0 2, binding PLAYER_LASER_CODE 1 3],
      d.mod ≠ some L3.id) ∧
    model_match W STG_MODEL_LASER
      [binding PLAYER_LASER_CODE 0 2, binding PLAYER_LASER_CODE 1 3] = none ∧
    ∃ a path, W = place (a :: path) L1 ∧
      (∀ g ∈ a :: path, g.clear_before STG_MODEL_LASER) ∧
      model_match W STG_MODEL_LASER
          [binding PLAYER_LASER_CODE 0 2, binding PLAYER_LASER_CODE 1 3] =
        path.findSome? (fun g => model_match_children g.post STG_MODEL_LASER
          [binding PLAYER_LASER_CODE 0 2, binding PLAYER_LASER_CODE 1 3]) ∧
      (model_match W STG_MODEL_LASER
          [binding PLAYER_LASER_CODE 0 2, binding PLAYER_LASER_CODE 1 3] = none ↔
        ∀ g ∈ path, model_match_children g.post STG_MODEL_LASER
          [binding PLAYER_LASER_CODE 0 2, binding PLAYER_LASER_CODE 1 3] = none) :=
  ⟨rfl, by decide, by decide, by decide, rfl,
    C3_claimed_first_match W STG_MODEL_LASER
      [binding PLAYER_LASER_CODE 0 2, binding PLAYER_LASER_CODE 1 3] L1 rfl
      (by decide) (by decide)⟩

/-- Claim C5 fails as stated.  The driver built for `position@R` has never been
subscribed, so its only Binding is inactive; with a command and a request
pending, one pass pulls and applies the command, pulls and handles the request,
and publishes. -/
theorem C5_inactive_binding_dispatched :
    (StgDriver.StgDriver host [R] [provides PLAYER_POSITION_CODE 0 "R"]).devices
      = [binding PLAYER_POSITION_CODE 0 1] ∧
    (binding PLAYER_POSITION_CODE 0 1).active = false ∧
    ((StgDriver.StgDriver host [R] [provides PLAYER_POSITION_CODE 0 "R"]).Update
        player.toPlayer busy).2
      = [Action.GetCommand (binding PLAYER_POSITION_CODE 0 1) 8,
         Action.Command (binding PLAYER_POSITION_CODE 0 1) 8,
         Action.GetConfig (binding PLAYER_POSITION_CODE 0 1) 8192,
         Action.Configure (binding PLAYER_POSITION_CODE 0 1) 1 4,
         Action.Publish (binding PLAYER_POSITION_CODE 0 1)] := by
  decide

/-- Claim C5, amended.  One pass of `Update` does not look at the activity
flag.  For every Binding `b` of the Binding Set, active or not, standing after
the Bindings `pre` and before the Bindings `post`, the calls of the pass are the
calls for `pre`, then the calls of `spec_calls` for `b` in the state in which
`b` is reached (the command pulled when `b.cmd_len > 0` and applied when one is
pending, the request pulled when `b.req_qlen > 0` and handled when one is
pending, the observation published), then the calls for `post`. -/
theorem C5_every_binding_dispatched {σ : Type} (this : StgDriver) (P : Player σ)
    (st : σ) (pre : List Interface) (b : Interface) (post : List Interface)
    (hdev : this.devices = pre ++ b :: post) :
    (this.Update P st).2 =
      (Update_loop P pre (st, [])).2 ++ spec_calls P (reached P pre st) b ++
        (Update_loop P post (reached P (pre ++ [b]) st, [])).2 := by
  unfold StgDriver.Update
  rw [hdev, Update_loop_split, Update_body_spec_calls]

/-- Claim C5, amended, at an inactive position Binding listed after a laser
Binding, with a command and a request pending: the command is pulled and
applied, the request pulled and handled, the observation published. -/
theorem C5_every_binding_dispatched_witness :
    (binding PLAYER_POSITION_CODE 0 1).active = false ∧
    spec_calls player.toPlayer
        (reached player.toPlayer [binding PLAYER_LASER_CODE 0 2] busy)
        (binding PLAYER_POSITION_CODE 0 1)
      = [Action.GetCommand (binding PLAYER_POSITION_CODE 0 1) 8,
         Action.Command (binding PLAYER_POSITION_CODE 0 1) 8,
         Action.GetConfig (binding PLAYER_POSITION_CODE 0 1) 8192,
         Action.Configure (binding PLAYER_POSITION_CODE 0 1) 1 4,
         Action.Publish (binding PLAYER_POSITION_CODE 0 1)] ∧
    (StgDriver.Update
        { devices := [binding PLAYER_LASER_CODE 0 2, binding PLAYER_POSITION_CODE 0 1],
          error := 0 } player.toPlayer busy).2 =
      (Update_loop player.toPlayer [binding PLAYER_LASER_CODE 0 2] (busy, [])).2 ++
        spec_calls player.toPlayer
          (reached player.toPlayer [binding PLAYER_LASER_CODE 0 2] busy)
          (binding PLAYER_POSITION_CODE 0 1) ++
        (Update_loop player.toPlayer []
          (reached player.toPlayer
            ([binding PLAYER_LASER_CODE 0 2] ++ [binding PLAYER_POSITION_CODE 0 1])
            busy, [])).2 :=
  ⟨rfl, by decide,
    C5_every_binding_dispatched
      { devices := [binding PLAYER_LASER_CODE 0 2, binding PLAYER_POSITION_CODE 0 1],
        error := 0 } player.toPlayer busy [binding PLAYER_LASER_CODE 0 2]
      (binding PLAYER_POSITION_CODE 0 1) [] rfl⟩

/-- Claim C6.  The entity-facing calls of one pass of `Update` are the
concatenation, in Binding Set order, of one block per Binding, each block being
the command application (if the entity accepts commands and one is pending),
then the configuration handling (if the entity accepts requests and one is
pending), then one publish. -/
theorem C6_ordering {σ : Type} (this : StgDriver) (P : Player σ) (st : σ) :
    (this.Update P st).2.filter Action.entity_facing =
      (spec_blocks P st this.devices).flatten ∧
    (spec_blocks P st this.devices).length = this.devices.length :=
  ⟨Update_loop_entity_facing P this.devices st, spec_blocks_length P this.devices st⟩

/-- Claim C8 fails as stated.  The request of 9000 bytes pending on position
device 0 exceeds the maximum message size 8192 and the pull reports it as an
error (-1); the request is not handled, but the Binding is still published in
that cycle. -/
theorem C8_publish_after_malformed :
    (oversized (dev PLAYER_POSITION_CODE 0)).requests = [9000] ∧
    (player.toPlayer.GetConfig oversized (dev PLAYER_POSITION_CODE 0)
      player.toPlayer.PLAYER_MAX_MESSAGE_SIZE).1.1 = -1 ∧
    (StgDriver.Update
      { devices := [binding PLAYER_POSITION_CODE 0 1, binding PLAYER_LASER_CODE 0 2],
        error := 0 } player.toPlayer oversized).2
      = [Action.GetCommand (binding PLAYER_POSITION_CODE 0 1) 8,
         Action.GetConfig (binding PLAYER_POSITION_CODE 0 1) 8192,
         Action.Publish (binding PLAYER_POSITION_CODE 0 1),
         Action.GetConfig (binding PLAYER_LASER_CODE 0 2) 8192,
         Action.Configure (binding PLAYER_LASER_CODE 0 2) 1 4,
         Action.Publish (binding PLAYER_LASER_CODE 0 2)] := by
  decide

/-- Claim C8, amended.  Let the Binding `b` stand after the Bindings `pre` and
before the Bindings `post`.  The calls of one pass are the calls for `pre`, the
calls of the loop body for `b`, and the calls for `post`.  In the loop body for
`b`, from whatever state: a command is applied only if `b.cmd_len > 0` and the
pull returned a positive length, and with that length; a request is handled
only if `b.req_qlen > 0` and the pull returned a positive length, and with that
length and client; so a message the pull rejects is not delivered.  Nothing else
is skipped for `b`: its request is pulled when `b.req_qlen > 0` whatever became
of its command, and it is always published.  And with a Player in which every
pull and every interface method reads and writes only a slot of state of its
own device (`DevicePlayer`), two passes whose starting states differ only in
the slot of device `d` (the malformed message present or absent) make exactly
the same calls, in the same order, for all Bindings of other devices. -/
theorem C8_malformed_contained {σ δ : Type} (P : Player σ) (this : StgDriver)
    (st : σ) (pre : List Interface) (b : Interface) (post : List Interface)
    (hdev : this.devices = pre ++ b :: post)
    (D : DevicePlayer δ) (d : player_device_id_t) (s s' : player_device_id_t → δ)
    (hdiff : ∀ id, id ≠ d → s id = s' id) :
    (this.Update P st).2 =
      (Update_loop P pre (st, [])).2 ++ (Update_body P b (reached P pre st, [])).2 ++
        (Update_loop P post (reached P (pre ++ [b]) st, [])).2 ∧
    (∀ x n, Action.Command b n ∈ (Update_body P b (x, [])).2 →
      0 < b.cmd_len ∧ n = (P.GetCommand x b.id b.cmd_len).1 ∧ 0 < n) ∧
    (∀ x c n, Action.Configure b c n ∈ (Update_body P b (x, [])).2 →
      0 < b.req_qlen ∧
      (n, c) = (P.GetConfig (Update_command P b (x, [])).1 b.id
        P.PLAYER_MAX_MESSAGE_SIZE).1 ∧ 0 < n) ∧
    (∀ x, Action.Publish b ∈ (Update_body P b (x, [])).2 ∧
      (0 < b.req_qlen →
        Action.GetConfig b P.PLAYER_MAX_MESSAGE_SIZE ∈ (Update_body P b (x, [])).2)) ∧
    (this.Update D.toPlayer s).2.filter (fun a => decide (a.interface.id ≠ d)) =
      (this.Update D.toPlayer s').2.filter (fun a => decide (a.interface.id ≠ d)) := by
  refine ⟨?_, ?_, ?_, ?_, (toPlayer_loop_independent D d this.devices s s' hdiff).2⟩
  · unfold StgDriver.Update
    rw [hdev, Update_loop_split]
  · intro x n h
    rw [Update_body_trace] at h
    simp only [List.mem_append, List.mem_singleton] at h
    rcases h with (h | h) | h
    · rw [Update_command_trace] at h
      split_ifs at h with h1 h2
      · simp only [List.mem_cons, List.mem_singleton, List.not_mem_nil, or_false] at h
        rcases h with h | h
        · cases h
        · cases h
          exact ⟨h1, rfl, h2⟩
      · simp only [List.mem_singleton] at h
        cases h
      · simp at h
    · rcases Update_config_cases P b _ _ h with h | ⟨h, _⟩ <;> cases h
    · cases h
  · intro x c n h
    rw [Update_body_trace] at h
    simp only [List.mem_append, List.mem_singleton] at h
    rcases h with (h | h) | h
    · rcases Update_command_cases P b _ _ h with h | ⟨h, _⟩ <;> cases h
    · rw [Update_config_trace] at h
      split_ifs at h with h1 h2
      · simp only [List.mem_cons, List.mem_singleton, List.not_mem_nil, or_false] at h
        rcases h with h | h
        · cases h
        · cases h
          exact ⟨h1, rfl, h2⟩
      · simp only [List.mem_singleton] at h
        cases h
      · simp at h
    · cases h
  · intro x
    exact ⟨(Update_body_calls P b x).1, (Update_body_calls P b x).2.2⟩

/-- Claim C8, amended, at the states `oversized` and `clean`, which differ only in
the request of 9000 bytes on position device 0: the position Binding is
published in the state `oversized`, and the calls for the laser Binding are the
same in both. -/
theorem C8_malformed_contained_witness :
    (∀ id, id ≠ dev PLAYER_POSITION_CODE 0 → oversized id = clean id) ∧
    Action.Publish (binding PLAYER_POSITION_CODE 0 1) ∈
      (Update_body player.toPlayer (binding PLAYER_POSITION_CODE 0 1)
        (oversized, [])).2 ∧
    (StgDriver.Update
      { devices := [binding PLAYER_POSITION_CODE 0 1, binding PLAYER_LASER_CODE 0 2],
        error := 0 } player.toPlayer oversized).2.filter
        (fun a => decide (a.interface.id ≠ dev PLAYER_POSITION_CODE 0)) =
      (StgDriver.Update
        { devices := [binding PLAYER_POSITION_CODE 0 1, binding PLAYER_LASER_CODE 0 2],
          error := 0 } player.toPlayer clean).2.filter
        (fun a => decide (a.interface.id ≠ dev PLAYER_POSITION_CODE 0)) :=
  have hdiff : ∀ id, id ≠ dev PLAYER_POSITION_CODE 0 → oversized id = clean id :=
    fun id hid => by simp [oversized, clean, hid]
  ⟨hdiff,
    ((C8_malformed_contained player.toPlayer
      { devices := [binding PLAYER_POSITION_CODE 0 1, binding PLAYER_LASER_CODE 0 2],
        error := 0 } oversized [] (binding PLAYER_POSITION_CODE 0 1)
      [binding PLAYER_LASER_CODE 0 2] rfl player (dev PLAYER_POSITION_CODE 0)
      oversized clean hdiff).2.2.2.1 oversized).1,
    (C8_malformed_contained player.toPlayer
      { devices := [binding PLAYER_POSITION_CODE 0 1, binding PLAYER_LASER_CODE 0 2],
        error := 0 } oversized [] (binding PLAYER_POSITION_CODE 0 1)
      [binding PLAYER_LASER_CODE 0 2] rfl player (dev PLAYER_POSITION_CODE 0)
      oversized clean hdiff).2.2.2.2⟩

/-- Claim C10.  Whenever `model_match` returns an entity `m`, it lies in the
subtree of the root argument, has the required type, and is either the root
argument itself or referenced by no entry of `devices`; and the root argument is
returned whenever it has the required type, whatever `devices` holds. -/
theorem C10_sound (mod : stg_model_t) (tp : stg_model_type_t)
    (devices : List Interface) :
    (∀ m, model_match mod tp devices = some m →
      m ∈ preorder mod ∧ m.type = tp ∧
        (m = mod ∨ ∀ d ∈ devices, d.mod ≠ some m.id)) ∧
    (mod.type = tp → model_match mod tp devices = some mod) := by
  constructor
  · intro m h
    have hs := model_match_sound tp devices m mod h
    refine ⟨hs.1, hs.2.1, ?_⟩
    rcases hs.2.2 with h1 | h2
    · exact Or.inl h1
    · exact Or.inr ((already_used_eq_false_iff m devices).mp h2)
  · intro h
    cases mod with
    | mk i t ty cs =>
      simp only [stg_model_t.type] at h
      rw [model_match_mk, if_pos h]

/-- Claim C10 at the tree `R` with `P` bound: the search for a laser from `R`
returns `L1`, which is not bound; the search for a position model from `P`
returns the root argument `P`, bound though it is. -/
theorem C10_sound_witness :
    model_match R STG_MODEL_LASER [binding PLAYER_POSITION_CODE 0 1] = some L1 ∧
    (L1 ∈ preorder R ∧ L1.type = STG_MODEL_LASER ∧
      (L1 = R ∨ ∀ d ∈ [binding PLAYER_POSITION_CODE 0 1], d.mod ≠ some L1.id)) ∧
    P.type = STG_MODEL_POSITION ∧
    model_match P STG_MODEL_POSITION [binding PLAYER_POSITION_CODE 0 1] = some P :=
  ⟨rfl,
    (C10_sound R STG_MODEL_LASER [binding PLAYER_POSITION_CODE 0 1]).1 L1 rfl,
    rfl,
    (C10_sound P STG_MODEL_POSITION [binding PLAYER_POSITION_CODE 0 1]).2 rfl⟩

end Stage
